import Mathlib

/-!
Verification of the feed-diff and download pipeline of gopodgrab
(pod/podcast.go and cmd/update.go) against its specification.

The embedding is shallow and executable: strings (titles, file names,
URLs, feed bodies) are lists of characters, the filesystem is an
association list from directory path to directory listing, console
output, prompts and network requests are recorded in an event trace, and
the external collaborators (the feed parser, net/url, net/http, the
registry, the confirmation prompt) are oracle parameters.  Go ranges
over the `newEps` map in unspecified order, so every range over it takes
an explicit iteration-order parameter.
-/

namespace Gopodgrab

/-- Titles, file names, URLs and feed bodies are modelled as lists of
characters. -/
abbrev Path := List Char

/-- Builds a `Path` from a string literal. -/
def lit (s : String) : Path := s.toList

/-- Models Go `filepath.Ext` on a single path element: the suffix
starting at the final dot, empty when the element has no dot. -/
def extOf : Path → Path
  | [] => []
  | c :: cs => if '.' ∈ cs then extOf cs else if c = '.' then c :: cs else []

/-- The final slash-separated element of a path, as `filepath.Ext`
inspects only the part after the last separator. -/
def lastElem : Path → Path
  | [] => []
  | c :: cs => if '/' ∈ cs then lastElem cs else if c = '/' then cs else c :: cs

/-- Models Go `filepath.Ext`: the extension of the final element. -/
def filepathExt (p : Path) : Path := extOf (lastElem p)

/-- Models `strings.TrimSuffix(e, filepath.Ext(e))` as applied by
`readStore` to directory entries (which contain no separator): drops the
suffix beginning at the final dot. -/
def stripExt : Path → Path
  | [] => []
  | c :: cs => if '.' ∈ cs then c :: stripExt cs else if c = '.' then [] else c :: cs

/-- Modelled from the spec: the `File` part of an Episode (§3).  The Go
`Episode` type is not among the two source files; pod/podcast.go and
cmd/update.go access the fields `Title`, `File.URL`, `File.Size` and
`Bytes`, which this structure and `Episode` provide. -/
structure EpisodeFile where
  url : Path
  size : Int
deriving DecidableEq, Repr

/-- Modelled from the spec: an Episode record produced by feed parsing
(§3).  `bytes` is `none` while `transferredBytes` is unset. -/
structure Episode where
  title : Path
  file : EpisodeFile
  bytes : Option Nat
deriving DecidableEq, Repr

/-- `Podcast` from pod/podcast.go. -/
structure Podcast where
  name : Path
  feedURL : Path
  localStore : Path
deriving DecidableEq, Repr

/-- `ReservedPodName` constant from pod/podcast.go. -/
def reservedPodName : Path := lit "all"

/-- `feedFileName` constant from pod/podcast.go. -/
def feedFileName : Path := lit "feed.zip"

/-- A file's contents: a zip archive (as written by `refreshFeed`, a
list of named entries) or raw bytes (as written by `download`). -/
inductive Content
  | zipArc (entries : List (Path × Path))
  | raw (bytes : Path)
deriving DecidableEq, Repr

/-- A directory listing: file name to contents, first binding wins. -/
abbrev Dir := List (Path × Content)

/-- The error kinds surfaced by the pipeline (§7): the sentinel errors
of the repository (`ErrArchiveEmpty`, `ErrNoEntry`) and the kinds of
error returned by the standard-library collaborators. -/
inductive PodError
  | fetchErr
  | storeErr
  | archiveEmpty
  | parseErr
  | invalidURL
  | noEntry
deriving DecidableEq, Repr

/-- Association-list lookup; the first binding for a key wins. -/
def alookup {α : Type} : List (Path × α) → Path → Option α
  | [], _ => none
  | (k, v) :: t, k1 => if k = k1 then some v else alookup t k1

/-- Association-list update: overwrite the binding of `k` or append it. -/
def aset {α : Type} : List (Path × α) → Path → α → List (Path × α)
  | [], k, v => [(k, v)]
  | (k1, v1) :: t, k, v => if k1 = k then (k, v) :: t else (k1, v1) :: aset t k v

/-- Observable events of one run: HTTP requests, per-podcast diffing,
per-episode downloader invocations, console output and the
confirmation prompt. -/
inductive Ev
  | httpGet (url : Path)
  | diffPod (name : Path)
  | downloadEp (title : Path)
  | printNoNew
  | printHeader (name : Path)
  | printTitle (title : Path)
  | prompt (numEps : Nat) (totalBytes : Int)
deriving DecidableEq, Repr

/-- Program state: the filesystem (directory path to listing) and the
event trace. -/
structure St where
  fs : List (Path × Dir)
  trace : List Ev
deriving DecidableEq, Repr

/-- Appends one event to the trace. -/
def logEv (st : St) (e : Ev) : St := { st with trace := st.trace ++ [e] }

/-- The URLs requested over HTTP, in order, within a trace. -/
def httpGets (tr : List Ev) : List Path :=
  tr.filterMap fun e => match e with | .httpGet u => some u | _ => none

/-- The titles passed to the downloader, in order, within a trace. -/
def dlTitles (tr : List Ev) : List Path :=
  tr.filterMap fun e => match e with | .downloadEp t => some t | _ => none

/-- An HTTP response as `net/http` returns it: `http.Get` yields an
error only on transport failure; otherwise it yields a response of any
status code, body included. -/
structure HttpResp where
  status : Nat
  body : Path
deriving DecidableEq, Repr

/-- The network oracle: `none` is a transport error. -/
abbrev Net := Path → Option HttpResp

/-- The result of `url.Parse`: the re-rendered URL (`u.String()`) and
the path component (`u.Path`). -/
structure URLParts where
  full : Path
  path : Path
deriving DecidableEq, Repr

/-- Oracle for `url.Parse`; `none` is a parse failure. -/
abbrev ParseURL := Path → Option URLParts

/-- Modelled from the spec: the external pure function
`parseFeed(bytes) -> []Episode` (§1, §4.3); `none` is a parse failure,
which aborts the whole diff. -/
abbrev ParseFeed := Path → Option (List Episode)

/-- Models `os.MkdirAll` in `storeExists`: creates the directory when
absent, succeeds when present. -/
def mkdirAll (fs : List (Path × Dir)) (p : Path) : List (Path × Dir) :=
  match alookup fs p with
  | some _ => fs
  | none => aset fs p []

/-- Models `os.Create` plus a full write: fails (`none`) when the
directory does not exist, otherwise creates or truncates the named
file. -/
def writeFile (fs : List (Path × Dir)) (dir name : Path) (c : Content) :
    Option (List (Path × Dir)) :=
  match alookup fs dir with
  | none => none
  | some d => some (aset fs dir (aset d name c))

/-- `refreshFeed` from pod/podcast.go: `http.Get` the feed URL (a
transport error aborts; the status code is never inspected), ensure the
store directory exists, then write the single-entry zip snapshot named
after the podcast. -/
def refreshFeed (net : Net) (pod : Podcast) (st : St) : St × Except PodError Unit :=
  let st1 := logEv st (.httpGet pod.feedURL)
  match net pod.feedURL with
  | none => (st1, .error .fetchErr)
  | some resp =>
    let fs1 := mkdirAll st1.fs pod.localStore
    match writeFile fs1 pod.localStore feedFileName (.zipArc [(pod.name, resp.body)]) with
    | none => ({ st1 with fs := fs1 }, .error .storeErr)
    | some fs2 => ({ st1 with fs := fs2 }, .ok ())

/-- The set of stored names a directory listing induces: every entry
except the snapshot file, extension-stripped (loop body of
`readStore`). -/
def localIndex (d : Dir) : List Path :=
  (d.map Prod.fst).filterMap fun e =>
    if e = feedFileName then none else some (stripExt e)

/-- `readStore` from pod/podcast.go: list the store directory (failure
when it cannot be opened) and return the extension-stripped names,
snapshot file excluded. -/
def readStore (pod : Podcast) (st : St) : Except PodError (List Path) :=
  match alookup st.fs pod.localStore with
  | none => .error .storeErr
  | some d => .ok (localIndex d)

/-- `NewEpisodes` from pod/podcast.go: read the local store, open the
cached snapshot archive (failure when missing or not a zip), fail with
the empty-archive sentinel when it has no entries, parse the first
entry's body, and keep the parsed episodes whose title is not stored,
in feed order (the append loop).  The entry event records that this
podcast was diffed. -/
def NewEpisodes (parse : ParseFeed) (pod : Podcast) (st : St) :
    St × Except PodError (List Episode) :=
  let st1 := logEv st (.diffPod pod.name)
  match readStore pod st1 with
  | .error e => (st1, .error e)
  | .ok stored =>
    match alookup st1.fs pod.localStore with
    | none => (st1, .error .storeErr)
    | some d =>
      match alookup d feedFileName with
      | none => (st1, .error .storeErr)
      | some (.raw _) => (st1, .error .storeErr)
      | some (.zipArc entries) =>
        match entries with
        | [] => (st1, .error .archiveEmpty)
        | (_, body) :: _ =>
          match parse body with
          | none => (st1, .error .parseErr)
          | some feedEpis =>
            (st1, .ok (feedEpis.foldl
              (fun acc e => if e.title ∈ stored then acc else acc ++ [e]) []))

/-- `download` from pod/podcast.go: parse the media URL, `http.Get` it
(the status code is never inspected), derive the extension from the URL
path, create `<title><ext>` in the directory and write the body,
recording the number of bytes written in `Episode.Bytes`.  The episode
is returned alongside the state because Go mutates it through a
pointer; on every error path it is returned unchanged. -/
def download (net : Net) (purl : ParseURL) (e : Episode) (dir : Path) (st : St) :
    St × Episode × Except PodError Unit :=
  let st1 := logEv st (.downloadEp e.title)
  match purl e.file.url with
  | none => (st1, e, .error .invalidURL)
  | some u =>
    let st2 := logEv st1 (.httpGet u.full)
    match net u.full with
    | none => (st2, e, .error .fetchErr)
    | some resp =>
      match writeFile st2.fs dir (e.title ++ filepathExt u.path) (.raw resp.body) with
      | none => (st2, e, .error .storeErr)
      | some fs2 =>
        ({ st2 with fs := fs2 }, { e with bytes := some resp.body.length }, .ok ())

/-- `DownloadEpisodes` from pod/podcast.go: download each episode into
the podcast's store, returning at the first failure. -/
def DownloadEpisodes (net : Net) (purl : ParseURL) (pod : Podcast) :
    List Episode → St → St × Except PodError Unit
  | [], st => (st, .ok ())
  | e :: rest, st =>
    match download net purl e pod.localStore st with
    | (st1, _, .error err) => (st1, .error err)
    | (st1, _, .ok ()) => DownloadEpisodes net purl pod rest st1

/-- The first loop of `updatePods` in cmd/update.go: diff every podcast,
aborting at the first failure.  The Go `newEps` map is keyed by
pointer, and in the live pipeline every element of `pods` is a distinct
pointer, so the map is modelled as the association list of all
`(podcast, episodes)` pairs in insertion order. -/
def diffAll (parse : ParseFeed) :
    List Podcast → St → St × Except PodError (List (Podcast × List Episode))
  | [], st => (st, .ok [])
  | p :: rest, st =>
    match NewEpisodes parse p st with
    | (st1, .error e) => (st1, .error e)
    | (st1, .ok eps) =>
      match diffAll parse rest st1 with
      | (st2, .error e) => (st2, .error e)
      | (st2, .ok l) => (st2, .ok ((p, eps) :: l))

/-- The report loop of `updatePods`: per podcast, print the header and
every new title. -/
def printAll : List (Podcast × List Episode) → St → St
  | [], st => st
  | (p, eps) :: rest, st =>
    printAll rest (eps.foldl (fun s e => logEv s (.printTitle e.title))
      (logEv st (.printHeader p.name)))

/-- The episode count accumulated by the summary loop of `updatePods`. -/
def countEps (l : List (Podcast × List Episode)) : Nat :=
  l.foldl (fun n pe => n + pe.2.length) 0

/-- The expected byte total accumulated by the summary loop of
`updatePods`. -/
def sumBytes (l : List (Podcast × List Episode)) : Int :=
  l.foldl (fun b pe => pe.2.foldl (fun b1 e => b1 + e.file.size) b) 0

/-- The download loop of `updatePods`: per podcast, `DownloadEpisodes`,
returning at the first failure. -/
def runPods (net : Net) (purl : ParseURL) :
    List (Podcast × List Episode) → St → St × Except PodError Unit
  | [], st => (st, .ok ())
  | (p, eps) :: rest, st =>
    match DownloadEpisodes net purl p eps st with
    | (st1, .error e) => (st1, .error e)
    | (st1, .ok ()) => runPods net purl rest st1

/-- `updatePods` from cmd/update.go.  `approve` is the answer the
`waitApproval` collaborator would give; the prompt event carries the
raw episode count and byte total (`humanized` only re-renders the
latter).  `ip`, `ic` and `idl` are the iteration orders of the three
`range` loops over the `newEps` map, which Go leaves unspecified.
Note the guard compares the number of podcasts in the map (`len` of the
map), not the aggregated episode count, with zero. -/
def updatePods (net : Net) (purl : ParseURL) (parse : ParseFeed) (approve : Bool)
    (ip ic idl : List (Podcast × List Episode) → List (Podcast × List Episode))
    (pods : List Podcast) (st : St) : St × Except PodError Unit :=
  match diffAll parse pods st with
  | (st1, .error e) => (st1, .error e)
  | (st1, .ok newEps) =>
    if newEps.length = 0 then (logEv st1 .printNoNew, .ok ())
    else
      let st2 := printAll (ip newEps) st1
      let st3 := logEv st2 (.prompt (countEps (ic newEps)) (sumBytes (ic newEps)))
      if approve then runPods net purl (idl newEps) st3 else (st3, .ok ())

/-- Modelled from the spec: the registry collaborator's `getByName`
(§6); `Get` in pod/podcast.go reads the configuration map and returns
the no-entry sentinel when the name is absent. -/
def getPod (registry : List Podcast) (name : Path) : Except PodError Podcast :=
  match registry.find? (fun p => p.name == name) with
  | none => .error .noEntry
  | some p => .ok p

/-- The argument loop of `updateCmd.RunE` in cmd/update.go: look up each
argument, but on the reserved name run the update on the registry's
full list at once, abandoning the accumulated podcasts and the
remaining arguments; when the arguments are exhausted, run the update
on the accumulated list. -/
def runE (net : Net) (purl : ParseURL) (parse : ParseFeed) (approve : Bool)
    (ip ic idl : List (Podcast × List Episode) → List (Podcast × List Episode))
    (registry : List Podcast) :
    List Path → List Podcast → St → St × Except PodError Unit
  | [], acc, st => updatePods net purl parse approve ip ic idl acc st
  | arg :: rest, acc, st =>
    if arg = reservedPodName then
      updatePods net purl parse approve ip ic idl registry st
    else
      match getPod registry arg with
      | .error e => (st, .error e)
      | .ok p => runE net purl parse approve ip ic idl registry rest (acc ++ [p]) st

/-! Concrete fixtures used to exercise the model. -/

/-- An episode as feed parsing constructs it: `transferredBytes` unset. -/
def ep (t u : String) (sz : Int) : Episode :=
  { title := lit t, file := { url := lit u, size := sz }, bytes := none }

def cPod : Podcast :=
  { name := lit "pc", feedURL := lit "http://f", localStore := lit "/s" }

def pod2 : Podcast :=
  { name := lit "qc", feedURL := lit "http://q", localStore := lit "/q" }

/-- A podcast whose storage directory does not exist. -/
def badPod : Podcast :=
  { name := lit "bad", feedURL := lit "http://b", localStore := lit "/nope" }

/-- A network on which every request is a transport error. -/
def net0 : Net := fun _ => none

def purl0 : ParseURL := fun _ => none

def parse0 : ParseFeed := fun _ => none

def epis1 : List Episode := [ep "Ep1" "u1" 1, ep "Ep2" "u2" 2, ep "Ep3" "u3" 3]

def d1 : Dir := [(feedFileName, .zipArc [(cPod.name, lit "FEED")]), (lit "Ep1.mp3", .raw [])]

def st1 : St := { fs := [(cPod.localStore, d1)], trace := [] }

def parse1 : ParseFeed := fun b => if b = lit "FEED" then some epis1 else none

def dOld : Dir := [(feedFileName, .zipArc [(cPod.name, lit "OLD")])]

def stOld : St := { fs := [(cPod.localStore, dOld)], trace := [] }

def feedOld : List Episode := [ep "Ep1" "u1" 1]

def feedNew : List Episode := [ep "Ep1" "u1" 1, ep "Ep2" "u2" 2]

/-- Parses the cached snapshot body to one episode and the body the
remote now serves to two. -/
def parse2 : ParseFeed := fun b =>
  if b = lit "OLD" then some feedOld else if b = lit "NEW" then some feedNew else none

/-- The remote feed now serves the body listing two episodes. -/
def net2 : Net := fun u =>
  if u = cPod.feedURL then some { status := 200, body := lit "NEW" } else none

def d3 : Dir := [(feedFileName, .zipArc [(cPod.name, lit "F3")]), (lit "Ep1.mp3", .raw [])]

/-- A store that already mirrors its feed completely. -/
def st3 : St := { fs := [(cPod.localStore, d3)], trace := [] }

def parse3 : ParseFeed := fun b => if b = lit "F3" then some [ep "Ep1" "u1" 5] else none

/-- The feed endpoint answers 404. -/
def net4 : Net := fun u =>
  if u = cPod.feedURL then some { status := 404, body := lit "nope" } else none

def e5 : Episode := ep "EpA" "http://x/a.mp3" 3

def purl5 : ParseURL := fun u =>
  if u = lit "http://x/a.mp3" then
    some { full := lit "http://x/a.mp3", path := lit "/a.mp3" }
  else if u = lit "http://x/bad" then
    some { full := lit "http://x/bad", path := lit "/bad" }
  else none

/-- The media endpoint answers 500 for `a.mp3` and is unreachable
(transport error) for `bad`. -/
def net5 : Net := fun u =>
  if u = lit "http://x/a.mp3" then some { status := 500, body := lit "xy" } else none

def stEmptyStore : St := { fs := [(cPod.localStore, [])], trace := [] }

/-- An episode whose title contains a dot, served from an
extension-less URL. -/
def e6 : Episode := ep "Ep.1" "http://x/m" 0

def purl6 : ParseURL := fun u =>
  if u = lit "http://x/m" then some { full := lit "http://x/m", path := lit "/m" } else none

def net6 : Net := fun u =>
  if u = lit "http://x/m" then some { status := 200, body := lit "aa" } else none

/-- A downloadable episode whose media URL carries an extension. -/
def epW : Episode := ep "Ep2" "http://x/a.mp3" 2

def parse7 : ParseFeed := fun b =>
  if b = lit "F7" then some [ep "Ep1" "u1" 1, epW] else none

def d7 : Dir := [(feedFileName, .zipArc [(cPod.name, lit "F7")]), (lit "Ep1.mp3", .raw [])]

/-- A store holding the first of the two feed episodes. -/
def st7 : St := { fs := [(cPod.localStore, d7)], trace := [] }

/-- An episode whose media endpoint is unreachable. -/
def epBad : Episode := ep "EpB" "http://x/bad" 9

def parse8 : ParseFeed := fun b => if b = lit "F8" then some [epW, epBad] else none

def d8 : Dir := [(feedFileName, .zipArc [(cPod.name, lit "F8")])]

/-- An empty store whose feed lists one downloadable and one
unreachable episode. -/
def st8 : St := { fs := [(cPod.localStore, d8)], trace := [] }

def dE : Dir := [(feedFileName, .zipArc [])]

/-- A store whose cached snapshot archive has no entries at all. -/
def stE : St := { fs := [(cPod.localStore, dE)], trace := [] }

/-- The one-entry diff map of the `st7` scenario. -/
def l7 : List (Podcast × List Episode) := [(cPod, [epW])]

/-- State after diffing the `st7` scenario. -/
def st7a : St := (diffAll parse7 [cPod] st7).1

/-- Final state of the approved `st7` update. -/
def st7f : St := (updatePods net5 purl5 parse7 true id id id [cPod] st7).1

/-- State after the failing diff of `badPod`. -/
def st7b : St := (NewEpisodes parse7 badPod st7a).1

/-- The one-entry diff map of the `st8` scenario. -/
def l8 : List (Podcast × List Episode) := [(cPod, [epW, epBad])]

/-- State after diffing the `st8` scenario. -/
def st8a : St := (diffAll parse8 [cPod] st8).1

/-- State after reporting and prompting in the `st8` scenario. -/
def st8b : St := logEv (printAll (id l8) st8a) (.prompt (countEps (id l8)) (sumBytes (id l8)))

/-- State after the successful download of `epW`. -/
def st8c : St := (DownloadEpisodes net5 purl5 cPod [epW] st8b).1

/-- State after the failing download of `epBad`. -/
def st8d : St := (download net5 purl5 epBad cPod.localStore st8c).1

/-- The episode value returned by the failing download of `epBad`. -/
def ep8d : Episode := (download net5 purl5 epBad cPod.localStore st8c).2.1

/-! Helper lemmas. -/

@[simp]
theorem logEv_fs (st : St) (e : Ev) : (logEv st e).fs = st.fs := rfl

@[simp]
theorem logEv_trace (st : St) (e : Ev) : (logEv st e).trace = st.trace ++ [e] := rfl

theorem alookup_aset_self {α : Type} (l : List (Path × α)) (k : Path) (v : α) :
    alookup (aset l k v) k = some v := by
  induction l with
  | nil => simp [aset, alookup]
  | cons h t ih =>
    obtain ⟨k1, v1⟩ := h
    by_cases hk : k1 = k
    · simp [aset, hk, alookup]
    · simp [aset, hk, alookup, ih]

theorem mem_map_fst_aset (d : Dir) (k : Path) (v : Content) :
    k ∈ (aset d k v).map Prod.fst := by
  induction d with
  | nil =>
    simp only [aset, List.map_cons, List.map_nil]
    exact List.mem_cons_self _ _
  | cons h t ih =>
    obtain ⟨k1, v1⟩ := h
    by_cases hk : k1 = k
    · simp only [aset, if_pos hk, List.map_cons]
      exact List.mem_cons_self _ _
    · simp only [aset, if_neg hk, List.map_cons, List.mem_cons]
      exact Or.inr ih

@[simp]
theorem httpGets_append (a b : List Ev) : httpGets (a ++ b) = httpGets a ++ httpGets b := by
  simp [httpGets]

@[simp]
theorem dlTitles_append (a b : List Ev) : dlTitles (a ++ b) = dlTitles a ++ dlTitles b := by
  simp [dlTitles]

theorem stripExt_no_dot {s : Path} (h : '.' ∉ s) : stripExt s = s := by
  cases s with
  | nil => rfl
  | cons c cs =>
    have hc : ¬ c = '.' := fun hc => h (by simp [hc])
    have hcs : '.' ∉ cs := fun hm => h (by simp [hm])
    simp [stripExt, hcs, hc]

theorem stripExt_append_ext (t a : Path) (h : '.' ∉ a) :
    stripExt (t ++ '.' :: a) = t := by
  induction t with
  | nil => simp [stripExt, h]
  | cons c cs ih =>
    have hm : '.' ∈ cs ++ '.' :: a := by simp
    simp [stripExt, hm, ih]

theorem extOf_shape (s : Path) :
    extOf s = [] ∨ ∃ a, extOf s = '.' :: a ∧ '.' ∉ a := by
  induction s with
  | nil => left; rfl
  | cons c cs ih =>
    by_cases hm : '.' ∈ cs
    · simpa [extOf, hm] using ih
    · by_cases hc : c = '.'
      · right
        exact ⟨cs, by simp [extOf, hm, hc], hm⟩
      · left
        simp [extOf, hm, hc]

theorem filepathExt_shape (p : Path) :
    filepathExt p = [] ∨ ∃ a, filepathExt p = '.' :: a ∧ '.' ∉ a :=
  extOf_shape (lastElem p)

theorem foldl_newEpis (stored : List Path) (l : List Episode) :
    ∀ acc : List Episode,
      l.foldl (fun acc e => if e.title ∈ stored then acc else acc ++ [e]) acc
        = acc ++ l.filter (fun e => decide (e.title ∉ stored)) := by
  induction l with
  | nil => intro acc; simp
  | cons a t ih =>
    intro acc
    by_cases h : a.title ∈ stored
    · simp [List.foldl_cons, h, ih]
    · simp [List.foldl_cons, h, ih]

/-- `NewEpisodes` changes the state only by recording the diff event. -/
theorem NewEpisodes_st (parse : ParseFeed) (pod : Podcast) (st : St) :
    (NewEpisodes parse pod st).1 = logEv st (.diffPod pod.name) := by
  unfold NewEpisodes
  dsimp only
  repeat' split
  all_goals rfl

/-- Evaluation of `NewEpisodes` when the store directory exists, the
snapshot is a non-empty archive and its first entry parses. -/
theorem NewEpisodes_spec (parse : ParseFeed) (pod : Podcast) (st : St)
    (d : Dir) (nm body : Path) (rest : List (Path × Path)) (epis : List Episode)
    (hd : alookup st.fs pod.localStore = some d)
    (hf : alookup d feedFileName = some (.zipArc ((nm, body) :: rest)))
    (hp : parse body = some epis) :
    NewEpisodes parse pod st
      = (logEv st (.diffPod pod.name),
         .ok (epis.filter (fun e => decide (e.title ∉ localIndex d)))) := by
  unfold NewEpisodes readStore
  simp only [logEv_fs]
  rw [hd]
  dsimp only
  rw [hf]
  dsimp only
  rw [hp]
  dsimp only
  rw [foldl_newEpis]
  simp

theorem httpGets_one (e : Ev) :
    httpGets [e] = match e with | .httpGet u => [u] | _ => [] := by
  cases e <;> rfl

theorem dlTitles_one (e : Ev) :
    dlTitles [e] = match e with | .downloadEp t => [t] | _ => [] := by
  cases e <;> rfl

theorem NewEpisodes_fs (parse : ParseFeed) (pod : Podcast) (st : St) :
    (NewEpisodes parse pod st).1.fs = st.fs := by
  rw [NewEpisodes_st]
  rfl

theorem NewEpisodes_trace (parse : ParseFeed) (pod : Podcast) (st : St) :
    (NewEpisodes parse pod st).1.trace = st.trace ++ [.diffPod pod.name] := by
  rw [NewEpisodes_st]
  rfl

theorem diffAll_preserves (parse : ParseFeed) (pods : List Podcast) : ∀ st : St,
    (diffAll parse pods st).1.fs = st.fs
      ∧ httpGets (diffAll parse pods st).1.trace = httpGets st.trace
      ∧ dlTitles (diffAll parse pods st).1.trace = dlTitles st.trace := by
  induction pods with
  | nil => intro st; exact ⟨rfl, rfl, rfl⟩
  | cons p rest ih =>
    intro st
    have hfs := NewEpisodes_fs parse p st
    have htr := NewEpisodes_trace parse p st
    unfold diffAll
    rcases hne : NewEpisodes parse p st with ⟨sta, ra⟩
    rw [hne] at hfs htr
    cases ra with
    | error e =>
      dsimp only
      refine ⟨hfs, ?_, ?_⟩ <;> rw [htr] <;> simp [httpGets_one, dlTitles_one]
    | ok eps =>
      dsimp only
      rcases hdt : diffAll parse rest sta with ⟨stb, rb⟩
      obtain ⟨ifs, ihttp, idl⟩ := ih sta
      rw [hdt] at ifs ihttp idl
      cases rb with
      | error e =>
        dsimp only
        refine ⟨?_, ?_, ?_⟩
        · rw [ifs, hfs]
        · rw [ihttp, htr]; simp [httpGets_one]
        · rw [idl, htr]; simp [dlTitles_one]
      | ok l =>
        dsimp only
        refine ⟨?_, ?_, ?_⟩
        · rw [ifs, hfs]
        · rw [ihttp, htr]; simp [httpGets_one]
        · rw [idl, htr]; simp [dlTitles_one]

theorem diffAll_fail (parse : ParseFeed) (pre : List Podcast) :
    ∀ (st st1 : St) (l : List (Podcast × List Episode)) (p : Podcast)
      (post : List Podcast) (st2 : St) (err : PodError),
      diffAll parse pre st = (st1, .ok l) →
      NewEpisodes parse p st1 = (st2, .error err) →
      diffAll parse (pre ++ p :: post) st = (st2, .error err) := by
  induction pre with
  | nil =>
    intro st st1 l p post st2 err hpre hne
    unfold diffAll at hpre
    simp only [Prod.mk.injEq] at hpre
    obtain ⟨h1, -⟩ := hpre
    subst h1
    rw [List.nil_append]
    unfold diffAll
    rw [hne]
  | cons q t ih =>
    intro st st1 l p post st2 err hpre hne
    rw [List.cons_append]
    unfold diffAll at hpre ⊢
    rcases hq : NewEpisodes parse q st with ⟨sta, ra⟩
    rw [hq] at hpre
    cases ra with
    | error e =>
      simp only [Prod.mk.injEq] at hpre
      exact Except.noConfusion hpre.2
    | ok eps =>
      dsimp only at hpre ⊢
      rcases hdt : diffAll parse t sta with ⟨stb, rb⟩
      rw [hdt] at hpre
      cases rb with
      | error e =>
        simp only [Prod.mk.injEq] at hpre
        exact Except.noConfusion hpre.2
      | ok lb =>
        dsimp only at hpre
        simp only [Prod.mk.injEq, Except.ok.injEq] at hpre
        obtain ⟨h1, -⟩ := hpre
        subst h1
        rw [ih sta stb lb p post st2 err hdt hne]



theorem download_none_url (net : Net) (purl : ParseURL) (e : Episode) (dir : Path) (st : St)
    (hp : purl e.file.url = none) :
    download net purl e dir st = (logEv st (.downloadEp e.title), e, .error .invalidURL) := by
  unfold download
  rw [hp]

theorem download_transport (net : Net) (purl : ParseURL) (e : Episode) (dir : Path) (st : St)
    (u : URLParts) (hp : purl e.file.url = some u) (hn : net u.full = none) :
    download net purl e dir st
      = (logEv (logEv st (.downloadEp e.title)) (.httpGet u.full), e, .error .fetchErr) := by
  unfold download
  rw [hp]
  dsimp only
  rw [hn]

theorem download_ok_spec (net : Net) (purl : ParseURL) (e : Episode) (dir : Path) (st : St)
    (u : URLParts) (resp : HttpResp) (d : Dir)
    (hp : purl e.file.url = some u) (hn : net u.full = some resp)
    (hd : alookup st.fs dir = some d) :
    download net purl e dir st
      = ({ logEv (logEv st (.downloadEp e.title)) (.httpGet u.full) with
            fs := aset st.fs dir (aset d (e.title ++ filepathExt u.path) (.raw resp.body)) },
         { e with bytes := some resp.body.length }, .ok ()) := by
  unfold download writeFile
  rw [hp]
  dsimp only
  rw [hn]
  dsimp only [logEv_fs]
  rw [hd]

theorem download_store_err (net : Net) (purl : ParseURL) (e : Episode) (dir : Path) (st : St)
    (u : URLParts) (resp : HttpResp)
    (hp : purl e.file.url = some u) (hn : net u.full = some resp)
    (hd : alookup st.fs dir = none) :
    download net purl e dir st
      = (logEv (logEv st (.downloadEp e.title)) (.httpGet u.full), e, .error .storeErr) := by
  unfold download writeFile
  rw [hp]
  dsimp only
  rw [hn]
  dsimp only [logEv_fs]
  rw [hd]

theorem download_err_fs (net : Net) (purl : ParseURL) (e : Episode) (dir : Path) (st st1 : St)
    (e1 : Episode) (err : PodError)
    (h : download net purl e dir st = (st1, e1, .error err)) : st1.fs = st.fs := by
  rcases hp : purl e.file.url with _ | u
  · rw [download_none_url net purl e dir st hp] at h
    simp only [Prod.mk.injEq] at h
    rw [← h.1]
    rfl
  · rcases hn : net u.full with _ | resp
    · rw [download_transport net purl e dir st u hp hn] at h
      simp only [Prod.mk.injEq] at h
      rw [← h.1]
      rfl
    · rcases hd : alookup st.fs dir with _ | d
      · rw [download_store_err net purl e dir st u resp hp hn hd] at h
        simp only [Prod.mk.injEq] at h
        rw [← h.1]
        rfl
      · rw [download_ok_spec net purl e dir st u resp d hp hn hd] at h
        simp only [Prod.mk.injEq] at h
        exact Except.noConfusion h.2.2

theorem download_ok_dl (net : Net) (purl : ParseURL) (e : Episode) (dir : Path) (st st1 : St)
    (e1 : Episode)
    (h : download net purl e dir st = (st1, e1, .ok ())) :
    dlTitles st1.trace = dlTitles st.trace ++ [e.title] := by
  rcases hp : purl e.file.url with _ | u
  · rw [download_none_url net purl e dir st hp] at h
    simp only [Prod.mk.injEq] at h
    exact Except.noConfusion h.2.2
  · rcases hn : net u.full with _ | resp
    · rw [download_transport net purl e dir st u hp hn] at h
      simp only [Prod.mk.injEq] at h
      exact Except.noConfusion h.2.2
    · rcases hd : alookup st.fs dir with _ | d
      · rw [download_store_err net purl e dir st u resp hp hn hd] at h
        simp only [Prod.mk.injEq] at h
        exact Except.noConfusion h.2.2
      · rw [download_ok_spec net purl e dir st u resp d hp hn hd] at h
        simp only [Prod.mk.injEq] at h
        rw [← h.1]
        simp [dlTitles]



theorem DownloadEpisodes_cons_err (net : Net) (purl : ParseURL) (pod : Podcast)
    (e : Episode) (rest : List Episode) (st st1 : St) (e1 : Episode) (err : PodError)
    (h : download net purl e pod.localStore st = (st1, e1, .error err)) :
    DownloadEpisodes net purl pod (e :: rest) st = (st1, .error err) := by
  conv_lhs => rw [DownloadEpisodes]
  rw [h]

theorem DownloadEpisodes_cons_ok (net : Net) (purl : ParseURL) (pod : Podcast)
    (e : Episode) (rest : List Episode) (st st1 : St) (e1 : Episode)
    (h : download net purl e pod.localStore st = (st1, e1, .ok ())) :
    DownloadEpisodes net purl pod (e :: rest) st = DownloadEpisodes net purl pod rest st1 := by
  conv_lhs => rw [DownloadEpisodes]
  rw [h]

theorem DownloadEpisodes_append_ok (net : Net) (purl : ParseURL) (pod : Podcast)
    (xs : List Episode) : ∀ (ys : List Episode) (st st1 : St),
      DownloadEpisodes net purl pod xs st = (st1, .ok ()) →
      DownloadEpisodes net purl pod (xs ++ ys) st = DownloadEpisodes net purl pod ys st1 := by
  induction xs with
  | nil =>
    intro ys st st1 h
    unfold DownloadEpisodes at h
    simp only [Prod.mk.injEq] at h
    rw [List.nil_append, h.1]
  | cons e t ih =>
    intro ys st st1 h
    rcases hdl : download net purl e pod.localStore st with ⟨sta, ea, ra⟩
    cases ra with
    | error er =>
      rw [DownloadEpisodes_cons_err net purl pod e t st sta ea er hdl] at h
      simp only [Prod.mk.injEq] at h
      exact Except.noConfusion h.2
    | ok uu =>
      cases uu
      rw [DownloadEpisodes_cons_ok net purl pod e t st sta ea hdl] at h
      rw [List.cons_append,
        DownloadEpisodes_cons_ok net purl pod e (t ++ ys) st sta ea hdl]
      exact ih ys sta st1 h

theorem DownloadEpisodes_ok_dl (net : Net) (purl : ParseURL) (pod : Podcast)
    (eps : List Episode) : ∀ (st st1 : St),
      DownloadEpisodes net purl pod eps st = (st1, .ok ()) →
      dlTitles st1.trace = dlTitles st.trace ++ eps.map (fun e => e.title) := by
  induction eps with
  | nil =>
    intro st st1 h
    unfold DownloadEpisodes at h
    simp only [Prod.mk.injEq] at h
    rw [← h.1]
    simp
  | cons e t ih =>
    intro st st1 h
    rcases hdl : download net purl e pod.localStore st with ⟨sta, ea, ra⟩
    cases ra with
    | error er =>
      rw [DownloadEpisodes_cons_err net purl pod e t st sta ea er hdl] at h
      simp only [Prod.mk.injEq] at h
      exact Except.noConfusion h.2
    | ok uu =>
      cases uu
      rw [DownloadEpisodes_cons_ok net purl pod e t st sta ea hdl] at h
      have h1 := download_ok_dl net purl e pod.localStore st sta ea hdl
      rw [ih sta st1 h, h1]
      simp

theorem runPods_cons_err (net : Net) (purl : ParseURL) (p : Podcast)
    (eps : List Episode) (rest : List (Podcast × List Episode)) (st st1 : St) (err : PodError)
    (h : DownloadEpisodes net purl p eps st = (st1, .error err)) :
    runPods net purl ((p, eps) :: rest) st = (st1, .error err) := by
  conv_lhs => rw [runPods]
  rw [h]

theorem runPods_cons_ok (net : Net) (purl : ParseURL) (p : Podcast)
    (eps : List Episode) (rest : List (Podcast × List Episode)) (st st1 : St)
    (h : DownloadEpisodes net purl p eps st = (st1, .ok ())) :
    runPods net purl ((p, eps) :: rest) st = runPods net purl rest st1 := by
  conv_lhs => rw [runPods]
  rw [h]

theorem runPods_append_ok (net : Net) (purl : ParseURL)
    (xs : List (Podcast × List Episode)) : ∀ (ys : List (Podcast × List Episode)) (st st1 : St),
      runPods net purl xs st = (st1, .ok ()) →
      runPods net purl (xs ++ ys) st = runPods net purl ys st1 := by
  induction xs with
  | nil =>
    intro ys st st1 h
    unfold runPods at h
    simp only [Prod.mk.injEq] at h
    rw [List.nil_append, h.1]
  | cons pe t ih =>
    intro ys st st1 h
    obtain ⟨p, eps⟩ := pe
    rcases hde : DownloadEpisodes net purl p eps st with ⟨sta, ra⟩
    cases ra with
    | error er =>
      rw [runPods_cons_err net purl p eps t st sta er hde] at h
      simp only [Prod.mk.injEq] at h
      exact Except.noConfusion h.2
    | ok uu =>
      cases uu
      rw [runPods_cons_ok net purl p eps t st sta hde] at h
      rw [List.cons_append, runPods_cons_ok net purl p eps (t ++ ys) st sta hde]
      exact ih ys sta st1 h

theorem runPods_ok_dl (net : Net) (purl : ParseURL)
    (l : List (Podcast × List Episode)) : ∀ (st st1 : St),
      runPods net purl l st = (st1, .ok ()) →
      dlTitles st1.trace
        = dlTitles st.trace ++ l.flatMap (fun pe => pe.2.map (fun e => e.title)) := by
  induction l with
  | nil =>
    intro st st1 h
    unfold runPods at h
    simp only [Prod.mk.injEq] at h
    rw [← h.1]
    simp
  | cons pe t ih =>
    intro st st1 h
    obtain ⟨p, eps⟩ := pe
    rcases hde : DownloadEpisodes net purl p eps st with ⟨sta, ra⟩
    cases ra with
    | error er =>
      rw [runPods_cons_err net purl p eps t st sta er hde] at h
      simp only [Prod.mk.injEq] at h
      exact Except.noConfusion h.2
    | ok uu =>
      cases uu
      rw [runPods_cons_ok net purl p eps t st sta hde] at h
      have h1 := DownloadEpisodes_ok_dl net purl p eps st sta hde
      rw [ih sta st1 h, h1]
      simp

theorem foldl_print_fs (eps : List Episode) : ∀ st : St,
    (eps.foldl (fun s e => logEv s (.printTitle e.title)) st).fs = st.fs := by
  induction eps with
  | nil => intro st; rfl
  | cons e t ih => intro st; rw [List.foldl_cons, ih]; rfl

theorem foldl_print_dl (eps : List Episode) : ∀ st : St,
    dlTitles (eps.foldl (fun s e => logEv s (.printTitle e.title)) st).trace
      = dlTitles st.trace := by
  induction eps with
  | nil => intro st; rfl
  | cons e t ih =>
    intro st
    rw [List.foldl_cons, ih]
    simp [dlTitles_one]

theorem printAll_fs (l : List (Podcast × List Episode)) : ∀ st : St,
    (printAll l st).fs = st.fs := by
  induction l with
  | nil => intro st; rfl
  | cons pe t ih =>
    intro st
    obtain ⟨p, eps⟩ := pe
    unfold printAll
    rw [ih, foldl_print_fs]
    rfl

theorem printAll_dl (l : List (Podcast × List Episode)) : ∀ st : St,
    dlTitles (printAll l st).trace = dlTitles st.trace := by
  induction l with
  | nil => intro st; rfl
  | cons pe t ih =>
    intro st
    obtain ⟨p, eps⟩ := pe
    unfold printAll
    rw [ih, foldl_print_dl]
    simp [dlTitles_one]

theorem updatePods_diff_err (net : Net) (purl : ParseURL) (parse : ParseFeed)
    (approve : Bool) (ip ic idl : List (Podcast × List Episode) → List (Podcast × List Episode))
    (pods : List Podcast) (st st1 : St) (err : PodError)
    (h : diffAll parse pods st = (st1, .error err)) :
    updatePods net purl parse approve ip ic idl pods st = (st1, .error err) := by
  unfold updatePods
  rw [h]

theorem updatePods_ok_unfold (net : Net) (purl : ParseURL) (parse : ParseFeed)
    (approve : Bool) (ip ic idl : List (Podcast × List Episode) → List (Podcast × List Episode))
    (pods : List Podcast) (st st1 : St) (l : List (Podcast × List Episode))
    (h : diffAll parse pods st = (st1, .ok l)) (hlen : ¬ l.length = 0) :
    updatePods net purl parse approve ip ic idl pods st
      = (if approve then
          runPods net purl (idl l)
            (logEv (printAll (ip l) st1) (.prompt (countEps (ic l)) (sumBytes (ic l))))
        else
          (logEv (printAll (ip l) st1) (.prompt (countEps (ic l)) (sumBytes (ic l))), .ok ())) := by
  unfold updatePods
  rw [h]
  dsimp only
  rw [if_neg hlen]

/-- Claim C1: for every feed document and local index, `NewEpisodes`
returns exactly the episodes parsed from the feed whose title is not in
the local index, as a filter of the parsed list — hence in the feed's
original order, with no reordering and no deduplication beyond title
equality. -/
theorem NewEpisodes_diff_spec (parse : ParseFeed) (pod : Podcast) (st : St)
    (d : Dir) (nm body : Path) (rest : List (Path × Path)) (epis : List Episode)
    (hd : alookup st.fs pod.localStore = some d)
    (hf : alookup d feedFileName = some (.zipArc ((nm, body) :: rest)))
    (hp : parse body = some epis) :
    (NewEpisodes parse pod st).2
      = .ok (epis.filter (fun e => decide (e.title ∉ localIndex d)))
    ∧ (epis.filter (fun e => decide (e.title ∉ localIndex d))).Sublist epis := by
  constructor
  · rw [NewEpisodes_spec parse pod st d nm body rest epis hd hf hp]
  · exact List.filter_sublist epis

/-- Claim C1 witness: the spec §8 example: feed titles Ep1, Ep2, Ep3
with Ep1.mp3 stored locally diffs to exactly Ep2 and Ep3, in order. -/
theorem NewEpisodes_diff_spec_witness :
    alookup st1.fs cPod.localStore = some d1
    ∧ parse1 (lit "FEED") = some epis1
    ∧ (NewEpisodes parse1 cPod st1).2
        = .ok (epis1.filter (fun e => decide (e.title ∉ localIndex d1)))
    ∧ epis1.filter (fun e => decide (e.title ∉ localIndex d1))
        = [ep "Ep2" "u2" 2, ep "Ep3" "u3" 3] :=
  ⟨rfl, rfl,
    (NewEpisodes_diff_spec parse1 cPod st1 d1 cPod.name (lit "FEED") [] epis1
      rfl rfl rfl).1,
    by decide⟩

/-- Claim C2 counterexample: with a cached snapshot listing only Ep1
while the remote feed would serve a body listing Ep1 and Ep2, the
update pipeline reports only Ep1 as new and performs no HTTP request at
all: `NewEpisodes` as invoked by `updatePods` never fetches the remote
feed, refuting refresh-then-diff. -/
theorem update_no_refresh_cex :
    (updatePods net2 purl0 parse2 false id id id [cPod] stOld).2 = .ok ()
    ∧ httpGets (updatePods net2 purl0 parse2 false id id id [cPod] stOld).1.trace = []
    ∧ Ev.printTitle (lit "Ep1")
        ∈ (updatePods net2 purl0 parse2 false id id id [cPod] stOld).1.trace
    ∧ Ev.printTitle (lit "Ep2")
        ∉ (updatePods net2 purl0 parse2 false id id id [cPod] stOld).1.trace
    ∧ net2 cPod.feedURL = some { status := 200, body := lit "NEW" }
    ∧ parse2 (lit "NEW") = some feedNew
    ∧ ep "Ep2" "u2" 2 ∈ feedNew := by
  refine ⟨rfl, rfl, by decide, by decide, rfl, rfl, by decide⟩

/-- Claim C2 amended: the diff phase of a batch update never fetches
the remote feed: it leaves the filesystem (hence the cached snapshot)
unchanged and performs no HTTP request; `NewEpisodes` operates only on
the previously cached snapshot. -/
theorem diffAll_no_fetch (parse : ParseFeed) (pods : List Podcast) (st : St) :
    (diffAll parse pods st).1.fs = st.fs
    ∧ httpGets (diffAll parse pods st).1.trace = httpGets st.trace :=
  ⟨(diffAll_preserves parse pods st).1, (diffAll_preserves parse pods st).2.1⟩

/-- Claim C3: evaluation at the failing input.  One podcast whose feed
is fully mirrored locally (its diff is empty, so the aggregated
new-episode count is zero): `updatePods` does not report nothing-to-do
and still requests confirmation, prompting for 0 episodes, because
`len(newEps) == 0` tests the number of podcasts in the map rather than
the aggregated episode count. -/
theorem updatePods_emptyDiff_prompts :
    (NewEpisodes parse3 cPod st3).2 = .ok []
    ∧ (updatePods net0 purl0 parse3 false id id id [cPod] st3).2 = .ok ()
    ∧ Ev.prompt 0 0 ∈ (updatePods net0 purl0 parse3 false id id id [cPod] st3).1.trace
    ∧ Ev.printNoNew ∉ (updatePods net0 purl0 parse3 false id id id [cPod] st3).1.trace := by
  refine ⟨rfl, rfl, by decide, by decide⟩

/-- Claim C4 counterexample: the feed endpoint answers 404, yet
`refreshFeed` succeeds and overwrites the previously stored snapshot
with the 404 body — refuting that a non-2xx response yields a
`FetchError` and leaves the snapshot untouched. -/
theorem refreshFeed_non2xx_cex :
    net4 cPod.feedURL = some { status := 404, body := lit "nope" }
    ∧ alookup d3 feedFileName = some (.zipArc [(cPod.name, lit "F3")])
    ∧ (refreshFeed net4 cPod st3).2 = .ok ()
    ∧ alookup (refreshFeed net4 cPod st3).1.fs cPod.localStore
        = some [(feedFileName, .zipArc [(cPod.name, lit "nope")]), (lit "Ep1.mp3", .raw [])] :=
  ⟨rfl, rfl, rfl, rfl⟩

/-- Claim C4 amended: on a transport error `refreshFeed` returns the
fetch error and leaves the state unchanged except for the request
event (in particular the prior snapshot is untouched); on any received
response — the status code is never inspected — it succeeds and the
snapshot becomes the single-entry archive holding the response body. -/
theorem refreshFeed_fetch_spec (net : Net) (pod : Podcast) (st : St) :
    (net pod.feedURL = none →
      refreshFeed net pod st = (logEv st (.httpGet pod.feedURL), .error .fetchErr))
    ∧ (∀ resp : HttpResp, net pod.feedURL = some resp →
        (refreshFeed net pod st).2 = .ok ()
        ∧ ∃ d2 : Dir, alookup (refreshFeed net pod st).1.fs pod.localStore = some d2
            ∧ alookup d2 feedFileName = some (.zipArc [(pod.name, resp.body)])) := by
  constructor
  · intro hn
    unfold refreshFeed
    rw [hn]
  · intro resp hn
    unfold refreshFeed mkdirAll writeFile
    simp only [logEv_fs]
    rw [hn]
    dsimp only
    rcases hd : alookup st.fs pod.localStore with _ | d
    · dsimp only
      rw [alookup_aset_self]
      dsimp only
      exact ⟨rfl, aset [] feedFileName (.zipArc [(pod.name, resp.body)]), by
        rw [alookup_aset_self], by rw [alookup_aset_self]⟩
    · dsimp only
      rw [hd]
      dsimp only
      exact ⟨rfl, aset d feedFileName (.zipArc [(pod.name, resp.body)]), by
        rw [alookup_aset_self], by rw [alookup_aset_self]⟩

/-- Claim C4 witness: the transport-error case at a concrete store, and
the overwrite-on-response case at a concrete 404 response. -/
theorem refreshFeed_fetch_spec_witness :
    (net0 cPod.feedURL = none
      ∧ refreshFeed net0 cPod st3 = (logEv st3 (.httpGet cPod.feedURL), .error .fetchErr))
    ∧ (net4 cPod.feedURL = some { status := 404, body := lit "nope" }
      ∧ (refreshFeed net4 cPod st3).2 = .ok ()) :=
  ⟨⟨rfl, (refreshFeed_fetch_spec net0 cPod st3).1 rfl⟩,
   ⟨rfl, ((refreshFeed_fetch_spec net4 cPod st3).2 { status := 404, body := lit "nope" } rfl).1⟩⟩

/-- Claim C9: a cached snapshot archive with no entries makes
`NewEpisodes` fail with the empty-archive sentinel rather than return
an empty diff. -/
theorem NewEpisodes_empty_archive (parse : ParseFeed) (pod : Podcast) (st : St) (d : Dir)
    (hd : alookup st.fs pod.localStore = some d)
    (hf : alookup d feedFileName = some (.zipArc [])) :
    (NewEpisodes parse pod st).2 = .error .archiveEmpty := by
  unfold NewEpisodes readStore
  simp only [logEv_fs]
  rw [hd]
  dsimp only
  rw [hf]

/-- Claim C9 witness: a concrete store whose snapshot archive is
empty. -/
theorem NewEpisodes_empty_archive_witness :
    alookup stE.fs cPod.localStore = some dE
    ∧ alookup dE feedFileName = some (.zipArc [])
    ∧ (NewEpisodes parse0 cPod stE).2 = .error .archiveEmpty :=
  ⟨rfl, rfl, NewEpisodes_empty_archive parse0 cPod stE dE rfl rfl⟩



/-- Claim C5 counterexample: the media endpoint answers 500, yet
`download` succeeds and sets the transferred-bytes field to the length
of the 500 body — refuting that a non-success HTTP response yields a
`FetchError` and leaves the field unset. -/
theorem download_non2xx_cex :
    net5 (lit "http://x/a.mp3") = some { status := 500, body := lit "xy" }
    ∧ (download net5 purl5 e5 cPod.localStore stEmptyStore).2.2 = .ok ()
    ∧ e5.bytes = none
    ∧ (download net5 purl5 e5 cPod.localStore stEmptyStore).2.1.bytes = some 2 :=
  ⟨rfl, rfl, rfl, rfl⟩

/-- Claim C5 amended: a malformed URL or a transport error yields an
error and returns the episode unchanged, its transferred-bytes field
untouched and no file written; whenever a response is received — the
status code is never inspected — and the directory exists, the body is
written and the field is set to the number of body bytes. -/
theorem download_error_spec (net : Net) (purl : ParseURL) (e : Episode) (dir : Path) (st : St) :
    (purl e.file.url = none →
      download net purl e dir st = (logEv st (.downloadEp e.title), e, .error .invalidURL))
    ∧ (∀ u : URLParts, purl e.file.url = some u → net u.full = none →
        download net purl e dir st
          = (logEv (logEv st (.downloadEp e.title)) (.httpGet u.full), e, .error .fetchErr))
    ∧ (∀ (u : URLParts) (resp : HttpResp) (d : Dir),
        purl e.file.url = some u → net u.full = some resp → alookup st.fs dir = some d →
        download net purl e dir st
          = ({ logEv (logEv st (.downloadEp e.title)) (.httpGet u.full) with
                fs := aset st.fs dir
                  (aset d (e.title ++ filepathExt u.path) (.raw resp.body)) },
             { e with bytes := some resp.body.length }, .ok ())) :=
  ⟨fun hp => download_none_url net purl e dir st hp,
   fun u hp hn => download_transport net purl e dir st u hp hn,
   fun u resp d hp hn hd => download_ok_spec net purl e dir st u resp d hp hn hd⟩

/-- Claim C5 witness: the transport-error case leaves the episode
unchanged, and the any-response case sets the byte count. -/
theorem download_error_spec_witness :
    (purl5 e5.file.url = some { full := lit "http://x/a.mp3", path := lit "/a.mp3" }
      ∧ net0 (lit "http://x/a.mp3") = none
      ∧ download net0 purl5 e5 cPod.localStore stEmptyStore
          = (logEv (logEv stEmptyStore (.downloadEp e5.title))
              (.httpGet (lit "http://x/a.mp3")), e5, .error .fetchErr))
    ∧ (net5 (lit "http://x/a.mp3") = some { status := 500, body := lit "xy" }
      ∧ download net5 purl5 e5 cPod.localStore stEmptyStore
          = ({ logEv (logEv stEmptyStore (.downloadEp e5.title))
                (.httpGet (lit "http://x/a.mp3")) with
                fs := aset stEmptyStore.fs cPod.localStore
                  (aset [] (e5.title ++ filepathExt (lit "/a.mp3")) (.raw (lit "xy"))) },
             { e5 with bytes := some 2 }, .ok ())) :=
  ⟨⟨rfl, rfl,
    (download_error_spec net0 purl5 e5 cPod.localStore stEmptyStore).2.1
      { full := lit "http://x/a.mp3", path := lit "/a.mp3" } rfl rfl⟩,
   ⟨rfl,
    (download_error_spec net5 purl5 e5 cPod.localStore stEmptyStore).2.2
      { full := lit "http://x/a.mp3", path := lit "/a.mp3" }
      { status := 500, body := lit "xy" } [] rfl rfl rfl⟩⟩

/-- Claim C6 counterexample: episode title `Ep.1` downloaded from an
extension-less URL is written as file `Ep.1`; recomputing the local
index strips the final extension and yields `Ep`, so the index does not
contain the episode's title — the write-naming/read-naming round trip
fails. -/
theorem download_roundtrip_cex :
    e6.title = lit "Ep.1"
    ∧ (download net6 purl6 e6 cPod.localStore stEmptyStore).2.2 = .ok ()
    ∧ readStore cPod (download net6 purl6 e6 cPod.localStore stEmptyStore).1
        = .ok [lit "Ep"]
    ∧ e6.title ∉ ([lit "Ep"] : List Path) :=
  ⟨rfl, rfl, rfl, by decide⟩

/-- Claim C6 amended: after a successful download the recomputed local
index contains the episode's title, provided the written file name is
not the snapshot file's name and either the URL path carries an
extension or the title contains no dot. -/
theorem download_roundtrip (net : Net) (purl : ParseURL) (e : Episode) (pod : Podcast)
    (st : St) (u : URLParts) (resp : HttpResp) (d : Dir)
    (hp : purl e.file.url = some u) (hn : net u.full = some resp)
    (hd : alookup st.fs pod.localStore = some d)
    (hname : ¬ e.title ++ filepathExt u.path = feedFileName)
    (hdot : '.' ∉ e.title ∨ ¬ filepathExt u.path = []) :
    (download net purl e pod.localStore st).2.2 = .ok ()
    ∧ readStore pod (download net purl e pod.localStore st).1
        = .ok (localIndex (aset d (e.title ++ filepathExt u.path) (.raw resp.body)))
    ∧ e.title ∈ localIndex (aset d (e.title ++ filepathExt u.path) (.raw resp.body)) := by
  rw [download_ok_spec net purl e pod.localStore st u resp d hp hn hd]
  refine ⟨rfl, ?_, ?_⟩
  · unfold readStore
    dsimp only
    rw [alookup_aset_self]
  · have hstrip : stripExt (e.title ++ filepathExt u.path) = e.title := by
      rcases filepathExt_shape u.path with hext | ⟨a, ha, hna⟩
      · cases hdot with
        | inl hnd =>
          rw [hext, List.append_nil]
          exact stripExt_no_dot hnd
        | inr hne => exact absurd hext hne
      · rw [ha]
        exact stripExt_append_ext e.title a hna
    unfold localIndex
    rw [List.mem_filterMap]
    refine ⟨e.title ++ filepathExt u.path, mem_map_fst_aset d _ _, ?_⟩
    rw [if_neg hname, hstrip]

/-- Claim C6 witness: title `Ep2` downloaded from URL path `/a.mp3` is
written as `Ep2.mp3` and the recomputed index contains `Ep2`. -/
theorem download_roundtrip_witness :
    (download net5 purl5 epW cPod.localStore stEmptyStore).2.2 = .ok ()
    ∧ readStore cPod (download net5 purl5 epW cPod.localStore stEmptyStore).1
        = .ok (localIndex (aset [] (epW.title ++ filepathExt (lit "/a.mp3"))
            (.raw (lit "xy"))))
    ∧ epW.title ∈ localIndex (aset [] (epW.title ++ filepathExt (lit "/a.mp3"))
        (.raw (lit "xy"))) :=
  download_roundtrip net5 purl5 epW cPod stEmptyStore
    { full := lit "http://x/a.mp3", path := lit "/a.mp3" }
    { status := 500, body := lit "xy" } [] rfl rfl rfl (by decide) (Or.inl (by decide))



/-- Claim C7: on approval of a non-empty batch the downloader is
invoked for every new episode of every podcast, grouped
podcast-then-episode (all of one podcast's new episodes, in diff order,
before the next podcast's, for the map iteration order Go happened to
use); on decline the update terminates successfully with no downloader
invocation and an unchanged filesystem. -/
theorem updatePods_approval_decline :
    (∀ (net : Net) (purl : ParseURL) (parse : ParseFeed)
       (ip ic idl : List (Podcast × List Episode) → List (Podcast × List Episode))
       (pods : List Podcast) (st st1 stf : St) (l : List (Podcast × List Episode)),
       diffAll parse pods st = (st1, .ok l) →
       ¬ l.length = 0 →
       updatePods net purl parse true ip ic idl pods st = (stf, .ok ()) →
       dlTitles stf.trace
         = dlTitles st.trace ++ (idl l).flatMap (fun pe => pe.2.map (fun e => e.title)))
    ∧ (∀ (net : Net) (purl : ParseURL) (parse : ParseFeed)
       (ip ic idl : List (Podcast × List Episode) → List (Podcast × List Episode))
       (pods : List Podcast) (st st1 : St) (l : List (Podcast × List Episode)),
       diffAll parse pods st = (st1, .ok l) →
       ¬ l.length = 0 →
       (updatePods net purl parse false ip ic idl pods st).2 = .ok ()
       ∧ dlTitles (updatePods net purl parse false ip ic idl pods st).1.trace
           = dlTitles st.trace
       ∧ (updatePods net purl parse false ip ic idl pods st).1.fs = st.fs) := by
  constructor
  · intro net purl parse ip ic idl pods st st1 stf l hdiff hlen hok
    rw [updatePods_ok_unfold net purl parse true ip ic idl pods st st1 l hdiff hlen,
      if_pos rfl] at hok
    have h2 := (diffAll_preserves parse pods st).2.2
    rw [hdiff] at h2
    dsimp only at h2
    have h3 : dlTitles (logEv (printAll (ip l) st1)
        (.prompt (countEps (ic l)) (sumBytes (ic l)))).trace = dlTitles st.trace := by
      rw [logEv_trace, dlTitles_append, printAll_dl, h2]
      simp [dlTitles]
    rw [runPods_ok_dl net purl (idl l) _ stf hok, h3]
  · intro net purl parse ip ic idl pods st st1 l hdiff hlen
    rw [updatePods_ok_unfold net purl parse false ip ic idl pods st st1 l hdiff hlen,
      if_neg (by simp)]
    have h2 := (diffAll_preserves parse pods st).2.2
    rw [hdiff] at h2
    dsimp only at h2
    have h1 := (diffAll_preserves parse pods st).1
    rw [hdiff] at h1
    dsimp only at h1
    refine ⟨rfl, ?_, ?_⟩
    · dsimp only
      rw [logEv_trace, dlTitles_append, printAll_dl, h2]
      simp [dlTitles]
    · dsimp only
      rw [logEv_fs, printAll_fs, h1]

/-- Claim C8: fail-fast.  A diff failure at any podcast aborts the
whole batch at exactly the failing podcast's diff, surfacing its error
with no download performed and the filesystem unchanged; a download
failure at any episode aborts at exactly that episode, surfacing its
error, with everything written before the failure left on disk (the
failing download itself writes nothing). -/
theorem updatePods_fail_fast :
    (∀ (net : Net) (purl : ParseURL) (parse : ParseFeed) (approve : Bool)
       (ip ic idl : List (Podcast × List Episode) → List (Podcast × List Episode))
       (pre : List Podcast) (p : Podcast) (post : List Podcast)
       (st st1 : St) (l0 : List (Podcast × List Episode)) (st2 : St) (err : PodError),
       diffAll parse pre st = (st1, .ok l0) →
       NewEpisodes parse p st1 = (st2, .error err) →
       updatePods net purl parse approve ip ic idl (pre ++ p :: post) st = (st2, .error err)
       ∧ st2.fs = st.fs
       ∧ dlTitles st2.trace = dlTitles st.trace)
    ∧ (∀ (net : Net) (purl : ParseURL) (parse : ParseFeed)
       (ip ic idl : List (Podcast × List Episode) → List (Podcast × List Episode))
       (pods : List Podcast) (st st1 : St) (l preL : List (Podcast × List Episode))
       (q : Podcast) (eps : List Episode) (postL : List (Podcast × List Episode))
       (st3 : St) (preE : List Episode) (e : Episode) (postE : List Episode)
       (st4 st5 : St) (e1 : Episode) (err : PodError),
       diffAll parse pods st = (st1, .ok l) →
       ¬ l.length = 0 →
       idl l = preL ++ (q, eps) :: postL →
       runPods net purl preL
         (logEv (printAll (ip l) st1) (.prompt (countEps (ic l)) (sumBytes (ic l))))
         = (st3, .ok ()) →
       eps = preE ++ e :: postE →
       DownloadEpisodes net purl q preE st3 = (st4, .ok ()) →
       download net purl e q.localStore st4 = (st5, e1, .error err) →
       updatePods net purl parse true ip ic idl pods st = (st5, .error err)
       ∧ st5.fs = st4.fs) := by
  constructor
  · intro net purl parse approve ip ic idl pre p post st st1 l0 st2 err hpre hne
    have hfail := diffAll_fail parse pre st st1 l0 p post st2 err hpre hne
    refine ⟨updatePods_diff_err net purl parse approve ip ic idl
      (pre ++ p :: post) st st2 err hfail, ?_, ?_⟩
    · have h1 := NewEpisodes_fs parse p st1
      rw [hne] at h1
      dsimp only at h1
      have h2 := (diffAll_preserves parse pre st).1
      rw [hpre] at h2
      dsimp only at h2
      rw [h1, h2]
    · have h1 := NewEpisodes_trace parse p st1
      rw [hne] at h1
      dsimp only at h1
      have h2 := (diffAll_preserves parse pre st).2.2
      rw [hpre] at h2
      dsimp only at h2
      rw [h1, dlTitles_append, h2]
      simp [dlTitles]
  · intro net purl parse ip ic idl pods st st1 l preL q eps postL st3 preE e postE
      st4 st5 e1 err hdiff hlen hidl hpre heps hpreE hdl
    refine ⟨?_, download_err_fs net purl e q.localStore st4 st5 e1 err hdl⟩
    rw [updatePods_ok_unfold net purl parse true ip ic idl pods st st1 l hdiff hlen,
      if_pos rfl, hidl,
      runPods_append_ok net purl preL ((q, eps) :: postL) _ st3 hpre]
    have hDE : DownloadEpisodes net purl q eps st3 = (st5, .error err) := by
      rw [heps, DownloadEpisodes_append_ok net purl q preE (e :: postE) st3 st4 hpreE]
      exact DownloadEpisodes_cons_err net purl q e postE st4 st5 e1 err hdl
    exact runPods_cons_err net purl q eps postL st3 st5 err hDE

/-- Claim C10: when an argument equals the reserved name "all" and the
arguments before it all looked up successfully, the update runs on
exactly the registry's full podcast list: the podcasts accumulated
before "all" (any `acc`) are discarded and the arguments after "all"
(any `post`) are never examined. -/
theorem runE_reserved_all (net : Net) (purl : ParseURL) (parse : ParseFeed) (approve : Bool)
    (ip ic idl : List (Podcast × List Episode) → List (Podcast × List Episode))
    (registry : List Podcast) (pre : List Path) :
    ∀ (post : List Path) (acc : List Podcast) (st : St),
      reservedPodName ∉ pre →
      (∀ a ∈ pre, ∃ p : Podcast, getPod registry a = .ok p) →
      runE net purl parse approve ip ic idl registry (pre ++ reservedPodName :: post) acc st
        = updatePods net purl parse approve ip ic idl registry st := by
  induction pre with
  | nil =>
    intro post acc st h1 h2
    rw [List.nil_append]
    unfold runE
    rw [if_pos rfl]
  | cons a t ih =>
    intro post acc st h1 h2
    have ha : ¬ a = reservedPodName := by
      intro hh
      exact h1 (by rw [hh]; exact List.mem_cons_self _ _)
    obtain ⟨p, hp⟩ := h2 a (List.mem_cons_self _ _)
    rw [List.cons_append]
    unfold runE
    rw [if_neg ha, hp]
    dsimp only
    exact ih post (acc ++ [p]) st (fun hm => h1 (List.mem_cons_of_mem _ hm))
      (fun b hb => h2 b (List.mem_cons_of_mem _ hb))



/-- Claim C7 witness: a concrete one-podcast batch with one new
episode; on approval the downloader runs exactly on it, on decline
nothing is downloaded and the filesystem is unchanged. -/
theorem updatePods_approval_decline_witness :
    dlTitles st7f.trace
      = dlTitles st7.trace
        ++ (id l7).flatMap (fun pe => pe.2.map (fun e => e.title))
    ∧ (updatePods net5 purl5 parse7 false id id id [cPod] st7).2 = .ok ()
    ∧ dlTitles (updatePods net5 purl5 parse7 false id id id [cPod] st7).1.trace
        = dlTitles st7.trace
    ∧ (updatePods net5 purl5 parse7 false id id id [cPod] st7).1.fs = st7.fs :=
  ⟨updatePods_approval_decline.1 net5 purl5 parse7 id id id [cPod] st7
      st7a st7f l7 rfl (by decide) rfl,
   updatePods_approval_decline.2 net5 purl5 parse7 id id id [cPod] st7
      st7a l7 rfl (by decide)⟩

/-- Claim C8 witness: a concrete diff failure (second podcast's store
missing) aborting the batch with the filesystem unchanged, and a
concrete download failure (second episode's endpoint unreachable)
aborting right after the first episode was written, leaving it on
disk. -/
theorem updatePods_fail_fast_witness :
    (updatePods net0 purl0 parse7 false id id id ([cPod] ++ badPod :: [pod2]) st7
        = (st7b, .error .storeErr)
      ∧ st7b.fs = st7.fs)
    ∧ (updatePods net5 purl5 parse8 true id id id [cPod] st8 = (st8d, .error .fetchErr)
      ∧ st8d.fs = st8c.fs) :=
  ⟨(fun h => ⟨h.1, h.2.1⟩)
    (updatePods_fail_fast.1 net0 purl0 parse7 false id id id [cPod] badPod [pod2]
      st7 st7a l7 st7b .storeErr rfl rfl),
   updatePods_fail_fast.2 net5 purl5 parse8 id id id [cPod] st8 st8a l8 [] cPod
      [epW, epBad] [] st8b [epW] epBad [] st8c st8d ep8d .fetchErr
      rfl (by decide) rfl rfl rfl rfl rfl⟩



/-- Claim C10 witness: with registry `[cPod, pod2]`, arguments
`["qc", "all", "zzz"]` resolve to the full registry: the looked-up
`qc` is discarded and the bogus trailing argument is never
examined. -/
theorem runE_reserved_all_witness :
    runE net0 purl0 parse0 false id id id [cPod, pod2]
        ([lit "qc"] ++ reservedPodName :: [lit "zzz"]) [] st3
      = updatePods net0 purl0 parse0 false id id id [cPod, pod2] st3 :=
  runE_reserved_all net0 purl0 parse0 false id id id [cPod, pod2] [lit "qc"]
    [lit "zzz"] [] st3 (by decide)
    (fun a ha => by
      rw [List.mem_singleton] at ha
      subst ha
      exact ⟨pod2, rfl⟩)

end Gopodgrab
